import Mathlib

/-!
# Block-layer constants of `wnfs.h` and the block framing / chunking they bound

The header `src/wnfs/wnfs.h` declares four constants:

* `KEY_BYTE_SIZE = 32`
* `MAX_BLOCK_CONTENT_SIZE = ((MAX_BLOCK_SIZE - NONCE_SIZE) - AUTHENTICATION_TAG_SIZE)`
* `PUBLIC_KEY_EXPONENT = 65537`
* `RSA_KEY_SIZE = 2048`

`MAX_BLOCK_SIZE`, `NONCE_SIZE` and `AUTHENTICATION_TAG_SIZE` are used by the header but not
declared in it; their values are taken from the doc comment of `MAX_BLOCK_CONTENT_SIZE`
(2 ^ 18, 12 and 16).  The arithmetic is `size_t` arithmetic, modelled as arithmetic
modulo `2 ^ w`.

The framing of a block and the chunker are not part of the header; they are modelled from
the specification (sections 3, 4.2 and 6).
-/

namespace Wnfs

/-! ## Constants of the header -/

/-- Header line 9: `static const size_t KEY_BYTE_SIZE = 32;`. -/
def KEY_BYTE_SIZE : Nat := 32

/-- Modelled from the spec: the header uses `MAX_BLOCK_SIZE` without declaring it. The doc
comment of `MAX_BLOCK_CONTENT_SIZE` (header line 11) gives "The maximum block size is 2 ^ 18". -/
def MAX_BLOCK_SIZE : Nat := 2 ^ 18

/-- Modelled from the spec: the header uses `NONCE_SIZE` without declaring it. The doc comment
of `MAX_BLOCK_CONTENT_SIZE` (header line 11) reserves "the first 12 bytes" for the
initialization vector; the specification frames a block as `nonce(12 bytes) || ...`. -/
def NONCE_SIZE : Nat := 12

/-- Modelled from the spec: the header uses `AUTHENTICATION_TAG_SIZE` without declaring it. The
doc comment of `MAX_BLOCK_CONTENT_SIZE` (header line 12) gives "a 16 byte authentication tag". -/
def AUTHENTICATION_TAG_SIZE : Nat := 16

/-- Subtraction of two `size_t` values on a platform whose `size_t` has `w` bits: the
mathematical difference reduced modulo `2 ^ w`. -/
def sizeSub (w a b : Nat) : Nat :=
  (((a : Int) - (b : Int)) % ((2 : Int) ^ w)).toNat

/-- The initialiser of `MAX_BLOCK_CONTENT_SIZE` (header line 18),
`((MAX_BLOCK_SIZE - NONCE_SIZE) - AUTHENTICATION_TAG_SIZE)`, with the three names it uses as
parameters and `size_t` of `w` bits. -/
def blockContentSize (w maxBlockSize nonceSize tagSize : Nat) : Nat :=
  sizeSub w (sizeSub w maxBlockSize nonceSize) tagSize

/-- Header line 18:
`static const size_t MAX_BLOCK_CONTENT_SIZE = ((MAX_BLOCK_SIZE - NONCE_SIZE) - AUTHENTICATION_TAG_SIZE);`
with a 64-bit `size_t`. -/
def MAX_BLOCK_CONTENT_SIZE : Nat :=
  blockContentSize 64 MAX_BLOCK_SIZE NONCE_SIZE AUTHENTICATION_TAG_SIZE

/-- Header line 20: `static const uint64_t PUBLIC_KEY_EXPONENT = 65537;`. -/
def PUBLIC_KEY_EXPONENT : Nat := 65537 % 2 ^ 64

/-- Header line 22: `static const size_t RSA_KEY_SIZE = 2048;`. -/
def RSA_KEY_SIZE : Nat := 2048

/-! ## Block framing and chunking -/

/-- A byte. -/
abbrev Byte : Type := Fin 256

/-- Modelled from the spec: the sealing routine is not in the header. Section 6 fixes the
binary framing of a block as `nonce(12 bytes) || encrypted_payload(variable) || tag(16 bytes)`;
this is that concatenation. -/
def frame (nonce payload tag : List Byte) : List Byte :=
  nonce ++ payload ++ tag

/-- Modelled from the spec: section 3, `len(payload) = len(BlockCiphertext) - 12 - 16`; the
payload length read back from the length of a framed block. -/
def payloadLength (blockLength : Nat) : Nat :=
  blockLength - NONCE_SIZE - AUTHENTICATION_TAG_SIZE

/-- Modelled from the spec: the number of chunks `split` emits (section 4.2). There are
`len / maxPayload` full chunks; a non-empty remainder adds a last, shorter chunk; when the
length is an exact multiple of `maxPayload`, an empty final chunk is added only if the
implementation marks end-of-stream explicitly (`markEnd`). -/
def chunkCount (markEnd : Bool) (len maxPayload : Nat) : Nat :=
  len / maxPayload + (if len % maxPayload ≠ 0 then 1 else if markEnd then 1 else 0)

/-- Modelled from the spec: the chunker is not in the header. Section 4.2:
`split(stream, maxPayload)` yields chunks "each of length `maxPayload` except possibly the
last, which holds the remainder", with chunk boundaries "purely a function of offset": chunk
`i` is the `maxPayload` bytes from offset `i * maxPayload` (fewer at the end of the stream). -/
def split (markEnd : Bool) (stream : List Byte) (maxPayload : Nat) : List (List Byte) :=
  (List.range (chunkCount markEnd stream.length maxPayload)).map
    (fun i => (stream.drop (i * maxPayload)).take maxPayload)

/-- Modelled from the spec: section 4.2, `join(chunks)` "concatenates in order". -/
def join (chunks : List (List Byte)) : List Byte :=
  chunks.foldr (fun c acc => c ++ acc) []

/-! ## Arithmetic of the constants -/

theorem MAX_BLOCK_SIZE_eq : MAX_BLOCK_SIZE = 262144 := by
  decide

theorem sizeSub_of_le (w a b : Nat) (hb : b ≤ a) (ha : a < 2 ^ w) :
    sizeSub w a b = a - b := by
  unfold sizeSub
  have h1 : ((a : Int) - (b : Int)) = ((a - b : Nat) : Int) := by omega
  have h2 : ((2 : Int) ^ w) = (((2 : Nat) ^ w : Nat) : Int) := by push_cast; rfl
  rw [h1, h2, ← Int.natCast_mod, Int.toNat_natCast]
  exact Nat.mod_eq_of_lt (by omega)

theorem blockContentSize_of_le (w m n t : Nat) (hn : n ≤ m) (ht : t ≤ m - n) (hm : m < 2 ^ w) :
    blockContentSize w m n t = m - n - t := by
  unfold blockContentSize
  rw [sizeSub_of_le w m n hn hm, sizeSub_of_le w (m - n) t ht (by omega)]

theorem MAX_BLOCK_CONTENT_SIZE_eq : MAX_BLOCK_CONTENT_SIZE = 262116 := by
  unfold MAX_BLOCK_CONTENT_SIZE
  rw [blockContentSize_of_le 64 MAX_BLOCK_SIZE NONCE_SIZE AUTHENTICATION_TAG_SIZE
    (by decide) (by decide) (by decide)]
  decide

/-! ## Lemmas on the chunker model -/

theorem join_append_singleton (l : List (List Byte)) (c : List Byte) :
    join (l ++ [c]) = join l ++ c := by
  induction l with
  | nil => simp [join]
  | cons d l ih =>
    have hd : join (d :: (l ++ [c])) = d ++ join (l ++ [c]) := rfl
    have hd2 : join (d :: l) = d ++ join l := rfl
    rw [List.cons_append, hd, ih, hd2, List.append_assoc]

theorem join_chunks_eq_take (s : List Byte) (n k : Nat) :
    join ((List.range k).map (fun i => (s.drop (i * n)).take n)) = s.take (k * n) := by
  induction k with
  | zero => simp [join]
  | succ k ih =>
    rw [List.range_succ, List.map_append, List.map_singleton, join_append_singleton, ih,
      Nat.succ_mul, List.take_add]

theorem le_chunkCount_mul (markEnd : Bool) (len n : Nat) (hn : 0 < n) :
    len ≤ chunkCount markEnd len n * n := by
  unfold chunkCount
  have hdiv : n * (len / n) + len % n = len := Nat.div_add_mod len n
  have hlt : len % n < n := Nat.mod_lt len hn
  by_cases hr : len % n = 0
  · have : len = len / n * n := by rw [Nat.mul_comm]; omega
    calc len = len / n * n := this
      _ ≤ (len / n + _) * n := Nat.mul_le_mul_right n (Nat.le_add_right _ _)
  · rw [if_pos hr, Nat.add_mul, Nat.one_mul, Nat.mul_comm]
    omega

theorem chunkCount_le (markEnd : Bool) (len n : Nat) :
    chunkCount markEnd len n ≤ len / n + 1 := by
  unfold chunkCount
  split_ifs <;> omega

theorem length_split (markEnd : Bool) (s : List Byte) (n : Nat) :
    (split markEnd s n).length = chunkCount markEnd s.length n := by
  simp [split]

theorem getElem_split (markEnd : Bool) (s : List Byte) (n i : Nat)
    (h : i < (split markEnd s n).length) :
    (split markEnd s n)[i] = (s.drop (i * n)).take n := by
  simp [split]

theorem length_chunk_le (s : List Byte) (n i : Nat) :
    ((s.drop (i * n)).take n).length ≤ n := by
  rw [List.length_take]
  exact Nat.min_le_left _ _

theorem length_chunk_full (s : List Byte) (n i : Nat) (h : i + 1 ≤ s.length / n) :
    ((s.drop (i * n)).take n).length = n := by
  rw [List.length_take, List.length_drop]
  have h1 : (i + 1) * n ≤ s.length / n * n := Nat.mul_le_mul_right n h
  have h2 : s.length / n * n ≤ s.length := Nat.div_mul_le_self _ _
  have h3 : (i + 1) * n = i * n + n := Nat.succ_mul i n
  omega

/-! ## The claims -/

/-- C1: `MAX_BLOCK_CONTENT_SIZE` equals `MAX_BLOCK_SIZE - 12 - 16`, where 12 is `NONCE_SIZE`
and 16 is `AUTHENTICATION_TAG_SIZE`; with `MAX_BLOCK_SIZE = 2 ^ 18 = 262144` its value is
exactly 262116. -/
theorem max_block_content_size_value :
    MAX_BLOCK_CONTENT_SIZE = MAX_BLOCK_SIZE - 12 - 16 ∧
      MAX_BLOCK_CONTENT_SIZE = MAX_BLOCK_SIZE - NONCE_SIZE - AUTHENTICATION_TAG_SIZE ∧
      NONCE_SIZE = 12 ∧ AUTHENTICATION_TAG_SIZE = 16 ∧
      MAX_BLOCK_SIZE = 2 ^ 18 ∧ MAX_BLOCK_SIZE = 262144 ∧
      MAX_BLOCK_CONTENT_SIZE = 262116 := by
  rw [MAX_BLOCK_CONTENT_SIZE_eq]
  decide

/-- C2: block-size invariant of the framing `nonce(12) || payload || tag(16)`. For a nonce of
`NONCE_SIZE` bytes, a tag of `AUTHENTICATION_TAG_SIZE` bytes and a payload of at most
`MAX_BLOCK_CONTENT_SIZE` bytes, the framed block has length `12 + n + 16` with
`12 + 16 ≤ 12 + n + 16 ≤ MAX_BLOCK_SIZE`, the upper bound is reached exactly when the payload
has `MAX_BLOCK_CONTENT_SIZE` bytes, and the payload length is the block length minus 12
minus 16. -/
theorem frame_block_size (nonce payload tag : List Byte)
    (hnonce : nonce.length = NONCE_SIZE) (htag : tag.length = AUTHENTICATION_TAG_SIZE)
    (hpayload : payload.length ≤ MAX_BLOCK_CONTENT_SIZE) :
    (frame nonce payload tag).length = 12 + payload.length + 16 ∧
      12 + 16 ≤ (frame nonce payload tag).length ∧
      (frame nonce payload tag).length ≤ MAX_BLOCK_SIZE ∧
      ((frame nonce payload tag).length = MAX_BLOCK_SIZE ↔
        payload.length = MAX_BLOCK_CONTENT_SIZE) ∧
      payload.length = (frame nonce payload tag).length - 12 - 16 ∧
      payloadLength (frame nonce payload tag).length = payload.length := by
  have hlen : (frame nonce payload tag).length = 12 + payload.length + 16 := by
    unfold frame
    rw [List.length_append, List.length_append, hnonce, htag]
    rfl
  have hX := MAX_BLOCK_CONTENT_SIZE_eq
  have hM := MAX_BLOCK_SIZE_eq
  have hN : NONCE_SIZE = 12 := rfl
  have hT : AUTHENTICATION_TAG_SIZE = 16 := rfl
  unfold payloadLength
  rw [hlen, hM, hX, hN, hT]
  rw [hX] at hpayload
  omega

/-- Witness for C2: a 12-byte nonce, a 3-byte payload and a 16-byte tag. -/
theorem frame_block_size_witness :
    (frame (List.replicate 12 0) [1, 2, 3] (List.replicate 16 0)).length = 12 + 3 + 16 ∧
      12 + 16 ≤ (frame (List.replicate 12 0) [1, 2, 3] (List.replicate 16 0)).length ∧
      (frame (List.replicate 12 0) [1, 2, 3] (List.replicate 16 0)).length ≤ MAX_BLOCK_SIZE ∧
      ((frame (List.replicate 12 0) [1, 2, 3] (List.replicate 16 0)).length = MAX_BLOCK_SIZE ↔
        [(1 : Byte), 2, 3].length = MAX_BLOCK_CONTENT_SIZE) ∧
      [(1 : Byte), 2, 3].length =
        (frame (List.replicate 12 0) [1, 2, 3] (List.replicate 16 0)).length - 12 - 16 ∧
      payloadLength (frame (List.replicate 12 0) [1, 2, 3] (List.replicate 16 0)).length =
        [(1 : Byte), 2, 3].length :=
  frame_block_size (List.replicate 12 0) [1, 2, 3] (List.replicate 16 0)
    (by decide) (by decide) (by rw [MAX_BLOCK_CONTENT_SIZE_eq]; decide)

/-- C3: a SymmetricKey is exactly 32 bytes, `KEY_BYTE_SIZE = 32`, which is a 256-bit key. -/
theorem key_byte_size_value : KEY_BYTE_SIZE = 32 ∧ KEY_BYTE_SIZE * 8 = 256 := by
  decide

/-- C4: RSA key wrapping uses a 2048-bit modulus and public exponent 65537:
`RSA_KEY_SIZE = 2048` and `PUBLIC_KEY_EXPONENT = 65537`. -/
theorem rsa_parameters_value : RSA_KEY_SIZE = 2048 ∧ PUBLIC_KEY_EXPONENT = 65537 := by
  decide

/-- C5: with payload ceiling `X = MAX_BLOCK_CONTENT_SIZE`, a 600000-byte plaintext is split
into exactly `ceil(600000 / X)` chunks, which is 3: two full chunks of `X` bytes and a final
chunk of `600000 - 2 * X = 75768` bytes, whose lengths sum to 600000. -/
theorem split_600000_blocks (markEnd : Bool) (s : List Byte) (hs : s.length = 600000) :
    (split markEnd s MAX_BLOCK_CONTENT_SIZE).length =
        (600000 + MAX_BLOCK_CONTENT_SIZE - 1) / MAX_BLOCK_CONTENT_SIZE ∧
      (600000 + MAX_BLOCK_CONTENT_SIZE - 1) / MAX_BLOCK_CONTENT_SIZE = 3 ∧
      (split markEnd s MAX_BLOCK_CONTENT_SIZE).map List.length =
        [MAX_BLOCK_CONTENT_SIZE, MAX_BLOCK_CONTENT_SIZE, 75768] ∧
      600000 - 2 * MAX_BLOCK_CONTENT_SIZE = 75768 ∧
      MAX_BLOCK_CONTENT_SIZE + MAX_BLOCK_CONTENT_SIZE + 75768 = 600000 := by
  have hcount : chunkCount markEnd 600000 262116 = 3 := by
    unfold chunkCount
    rw [if_pos (by decide)]
  have hrange : List.range 3 = [0, 1, 2] := by decide
  rw [MAX_BLOCK_CONTENT_SIZE_eq]
  refine ⟨?_, by decide, ?_, by decide, by decide⟩
  · rw [length_split, hs, hcount]
  · unfold split
    rw [hs, hcount, hrange]
    simp [List.length_take, List.length_drop, hs]

/-- Witness for C5: the 600000-byte plaintext of zero bytes, without an end-of-stream chunk. -/
theorem split_600000_blocks_witness :
    (List.replicate 600000 (0 : Byte)).length = 600000 ∧
      (split false (List.replicate 600000 0) MAX_BLOCK_CONTENT_SIZE).length =
        (600000 + MAX_BLOCK_CONTENT_SIZE - 1) / MAX_BLOCK_CONTENT_SIZE ∧
      (600000 + MAX_BLOCK_CONTENT_SIZE - 1) / MAX_BLOCK_CONTENT_SIZE = 3 ∧
      (split false (List.replicate 600000 0) MAX_BLOCK_CONTENT_SIZE).map List.length =
        [MAX_BLOCK_CONTENT_SIZE, MAX_BLOCK_CONTENT_SIZE, 75768] ∧
      600000 - 2 * MAX_BLOCK_CONTENT_SIZE = 75768 ∧
      MAX_BLOCK_CONTENT_SIZE + MAX_BLOCK_CONTENT_SIZE + 75768 = 600000 :=
  ⟨List.length_replicate 600000 0,
    split_600000_blocks false (List.replicate 600000 0) (List.length_replicate 600000 0)⟩

/-- C6: chunker round-trip law. For every byte sequence `s` and every `maxPayload > 0`, in
particular for `maxPayload = MAX_BLOCK_CONTENT_SIZE`, `join (split s maxPayload) = s`,
whether or not the chunker marks end-of-stream with an empty chunk. -/
theorem join_split_roundtrip (markEnd : Bool) (s : List Byte) (maxPayload : Nat)
    (hpos : 0 < maxPayload) :
    join (split markEnd s maxPayload) = s ∧
      join (split markEnd s MAX_BLOCK_CONTENT_SIZE) = s := by
  have key : ∀ n : Nat, 0 < n → join (split markEnd s n) = s := by
    intro n hn
    unfold split
    rw [join_chunks_eq_take]
    exact List.take_of_length_le (le_chunkCount_mul markEnd s.length n hn)
  exact ⟨key maxPayload hpos, key MAX_BLOCK_CONTENT_SIZE (by rw [MAX_BLOCK_CONTENT_SIZE_eq]; decide)⟩

/-- Witness for C6: five bytes split at two bytes per chunk. -/
theorem join_split_roundtrip_witness :
    0 < 2 ∧ join (split false [1, 2, 3, 4, 5] 2) = [1, 2, 3, 4, 5] ∧
      join (split false [1, 2, 3, 4, 5] MAX_BLOCK_CONTENT_SIZE) = [1, 2, 3, 4, 5] :=
  ⟨by decide, join_split_roundtrip false [1, 2, 3, 4, 5] 2 (by decide)⟩

/-- C7: chunk-size invariant. Every chunk emitted by `split s MAX_BLOCK_CONTENT_SIZE` has
length at most `MAX_BLOCK_SIZE - 12 - 16`, and every chunk other than the last has exactly
that length, so at most one chunk, the last, is shorter than the ceiling. -/
theorem split_chunk_size (markEnd : Bool) (s : List Byte) (i : Nat)
    (hi : i < (split markEnd s MAX_BLOCK_CONTENT_SIZE).length) :
    (split markEnd s MAX_BLOCK_CONTENT_SIZE)[i].length ≤ MAX_BLOCK_SIZE - 12 - 16 ∧
      (i + 1 < (split markEnd s MAX_BLOCK_CONTENT_SIZE).length →
        (split markEnd s MAX_BLOCK_CONTENT_SIZE)[i].length = MAX_BLOCK_SIZE - 12 - 16) := by
  have hceil : MAX_BLOCK_SIZE - 12 - 16 = MAX_BLOCK_CONTENT_SIZE := by
    rw [MAX_BLOCK_CONTENT_SIZE_eq]
    decide
  rw [getElem_split, hceil]
  refine ⟨length_chunk_le s MAX_BLOCK_CONTENT_SIZE i, ?_⟩
  intro hlast
  rw [length_split] at hlast
  have hle := chunkCount_le markEnd s.length MAX_BLOCK_CONTENT_SIZE
  exact length_chunk_full s MAX_BLOCK_CONTENT_SIZE i (by omega)

/-- Witness for C7: the first of the three chunks of a 600000-byte stream. It is not the last
chunk, so it is a full chunk of `MAX_BLOCK_SIZE - 12 - 16` bytes. -/
theorem split_chunk_size_witness :
    (split false (List.replicate 600000 0) MAX_BLOCK_CONTENT_SIZE).length = 3 ∧
      ∃ hi : 0 < (split false (List.replicate 600000 0) MAX_BLOCK_CONTENT_SIZE).length,
        0 + 1 < (split false (List.replicate 600000 0) MAX_BLOCK_CONTENT_SIZE).length ∧
          ((split false (List.replicate 600000 0) MAX_BLOCK_CONTENT_SIZE).get ⟨0, hi⟩).length
            ≤ MAX_BLOCK_SIZE - 12 - 16 ∧
          ((split false (List.replicate 600000 0) MAX_BLOCK_CONTENT_SIZE).get ⟨0, hi⟩).length
            = MAX_BLOCK_SIZE - 12 - 16 ∧
          ((split false (List.replicate 600000 0) MAX_BLOCK_CONTENT_SIZE).get ⟨0, hi⟩).length
            = 262116 :=
  have hlen : (split false (List.replicate 600000 0) MAX_BLOCK_CONTENT_SIZE).length = 3 := by
    rw [length_split, List.length_replicate, MAX_BLOCK_CONTENT_SIZE_eq]
    decide
  have hi : 0 < (split false (List.replicate 600000 0) MAX_BLOCK_CONTENT_SIZE).length := by
    rw [hlen]
    decide
  have hnext : 0 + 1 < (split false (List.replicate 600000 0) MAX_BLOCK_CONTENT_SIZE).length := by
    rw [hlen]
    decide
  have hfull := (split_chunk_size false (List.replicate 600000 0) 0 hi).2 hnext
  ⟨hlen, hi, hnext, (split_chunk_size false (List.replicate 600000 0) 0 hi).1, hfull,
    hfull.trans (by decide)⟩

/-- C8: the `size_t` computation `((MAX_BLOCK_SIZE - NONCE_SIZE) - AUTHENTICATION_TAG_SIZE)`
never wraps: `NONCE_SIZE ≤ MAX_BLOCK_SIZE` and
`AUTHENTICATION_TAG_SIZE ≤ MAX_BLOCK_SIZE - NONCE_SIZE`, so the value computed modulo `2 ^ 64`
and the value computed modulo `2 ^ 32` both equal the integer difference, and it is strictly
positive. -/
theorem max_block_content_size_no_wrap :
    NONCE_SIZE ≤ MAX_BLOCK_SIZE ∧
      AUTHENTICATION_TAG_SIZE ≤ MAX_BLOCK_SIZE - NONCE_SIZE ∧
      (sizeSub 64 MAX_BLOCK_SIZE NONCE_SIZE : Int) = (MAX_BLOCK_SIZE : Int) - NONCE_SIZE ∧
      (sizeSub 32 MAX_BLOCK_SIZE NONCE_SIZE : Int) = (MAX_BLOCK_SIZE : Int) - NONCE_SIZE ∧
      (MAX_BLOCK_CONTENT_SIZE : Int) =
        (MAX_BLOCK_SIZE : Int) - NONCE_SIZE - AUTHENTICATION_TAG_SIZE ∧
      (blockContentSize 64 MAX_BLOCK_SIZE NONCE_SIZE AUTHENTICATION_TAG_SIZE : Int) =
        (MAX_BLOCK_SIZE : Int) - NONCE_SIZE - AUTHENTICATION_TAG_SIZE ∧
      (blockContentSize 32 MAX_BLOCK_SIZE NONCE_SIZE AUTHENTICATION_TAG_SIZE : Int) =
        (MAX_BLOCK_SIZE : Int) - NONCE_SIZE - AUTHENTICATION_TAG_SIZE ∧
      0 < MAX_BLOCK_CONTENT_SIZE ∧
      0 < blockContentSize 32 MAX_BLOCK_SIZE NONCE_SIZE AUTHENTICATION_TAG_SIZE := by
  have hn : NONCE_SIZE ≤ MAX_BLOCK_SIZE := by decide
  have ht : AUTHENTICATION_TAG_SIZE ≤ MAX_BLOCK_SIZE - NONCE_SIZE := by decide
  have h64 := blockContentSize_of_le 64 MAX_BLOCK_SIZE NONCE_SIZE AUTHENTICATION_TAG_SIZE
    hn ht (by decide)
  have h32 := blockContentSize_of_le 32 MAX_BLOCK_SIZE NONCE_SIZE AUTHENTICATION_TAG_SIZE
    hn ht (by decide)
  have s64 := sizeSub_of_le 64 MAX_BLOCK_SIZE NONCE_SIZE hn (by decide)
  have s32 := sizeSub_of_le 32 MAX_BLOCK_SIZE NONCE_SIZE hn (by decide)
  have hX : MAX_BLOCK_CONTENT_SIZE =
      blockContentSize 64 MAX_BLOCK_SIZE NONCE_SIZE AUTHENTICATION_TAG_SIZE := rfl
  rw [hX, h64, h32, s64, s32]
  refine ⟨hn, ht, ?_, ?_, ?_, ?_, ?_, ?_, ?_⟩ <;> decide

/-- C9: a symmetric key of `KEY_BYTE_SIZE` bytes fits in one RSA block of `RSA_KEY_SIZE` bits
under OAEP padding with a 256-bit (32-byte) hash:
`KEY_BYTE_SIZE ≤ RSA_KEY_SIZE / 8 - 2 * 32 - 2 = 190`, and `RSA_KEY_SIZE` is an exact
multiple of 8. -/
theorem key_fits_rsa_oaep_block :
    KEY_BYTE_SIZE ≤ RSA_KEY_SIZE / 8 - 2 * 32 - 2 ∧
      RSA_KEY_SIZE / 8 - 2 * 32 - 2 = 190 ∧
      2 * 32 + 2 ≤ RSA_KEY_SIZE / 8 ∧
      RSA_KEY_SIZE % 8 = 0 ∧ RSA_KEY_SIZE / 8 * 8 = RSA_KEY_SIZE := by
  decide

/-! ## Evaluations of the chunker model on small inputs -/

theorem split_five_by_two : split false [1, 2, 3, 4, 5] 2 = [[1, 2], [3, 4], [5]] := by
  decide

theorem split_exact_multiple_unmarked : split false [1, 2, 3, 4] 2 = [[1, 2], [3, 4]] := by
  decide

theorem split_exact_multiple_marked : split true [1, 2, 3, 4] 2 = [[1, 2], [3, 4], []] := by
  decide

theorem split_empty_stream : split false [] 2 = [] ∧ split true [] 2 = [[]] := by
  decide

theorem join_three_chunks : join [[1, 2], [3, 4], [5]] = [1, 2, 3, 4, 5] := by
  decide

theorem sizeSub_wraps_below_zero : sizeSub 64 12 16 = 2 ^ 64 - 4 ∧ sizeSub 32 0 1 = 2 ^ 32 - 1 := by
  decide

end Wnfs
